import Mathlib

/-!
Verification of the gokv/postgres key/value store (src/store.go and the
options variant) against its natural-language specification.

The Go code is shallowly embedded: the SQL layer is modelled by explicit
outcome values (prepare results, row-scan results, affected-row counts),
the table by an association list from keys to stored byte strings, and the
caller-supplied JSON codecs by explicit function parameters.  Stateful Go
code is translated into explicit state passing; every operation that
executes a SQL statement also records that fact in an execution log so that
claims of the form "the database is never touched" are observable.
-/

set_option autoImplicit false

namespace Postgres

/-- Errors flowing through the store.  `driver n` stands for an arbitrary
opaque error produced by the database driver or by a caller-supplied codec;
`uniqueViolation` is the primary-key constraint violation raised by the
database on a duplicate insert; `storeErrNoRows` is the distinguished
not-found value `store.ErrNoRows` from the gokv/store package returned by
`Update` and `Delete` when zero rows are affected. -/
inductive Err where
  | driver (n : Nat)
  | uniqueViolation
  | storeErrNoRows
deriving DecidableEq, Repr

/-- A prepared statement handle (`*sql.Stmt`).  `id` identifies the handle;
`closeErr` is the outcome its `Close` method would report (`none` means
closing succeeds). -/
structure Stmt where
  id : Nat
  closeErr : Option Err
deriving DecidableEq, Repr

deriving instance DecidableEq for Except

/-- The outcomes a database handle (`*sql.DB`) would give to the calls `New`
performs: the table-creation `Exec` (store.go line 29) and the six `Prepare`
calls (store.go lines 33-58), in source order. -/
structure DB where
  execErr : Option Err
  prepGet : Except Err Stmt
  prepGetAll : Except Err Stmt
  prepAdd : Except Err Stmt
  prepSet : Except Err Stmt
  prepUpdate : Except Err Stmt
  prepDelete : Except Err Stmt
deriving DecidableEq, Repr

/-- The `Store` struct (store.go lines 14-23): six prepared statement
handles.  `none` models a nil `*sql.Stmt` field, the zero value every field
holds until its prepare step succeeds. -/
structure Store where
  getStmt : Option Stmt := none
  getAllStmt : Option Stmt := none
  addStmt : Option Stmt := none
  setStmt : Option Stmt := none
  updateStmt : Option Stmt := none
  deleteStmt : Option Stmt := none
deriving DecidableEq, Repr

/-- The fixed ordered list of statement handles that `Close` iterates
(store.go lines 71-78). -/
def Store.stmtList (s : Store) : List (Option Stmt) :=
  [s.getStmt, s.getAllStmt, s.addStmt, s.setStmt, s.updateStmt, s.deleteStmt]

/-- Keep the first of two optional errors: `if err == nil { err = e }`. -/
def orFirst : Option Err → Option Err → Option Err
  | some e, _ => some e
  | none, o => o

/-- One iteration of the loop body of `Close` (store.go lines 79-83): a nil
handle is skipped; a non-nil handle is closed (its id is recorded in the
trace) and its close error is kept only when no earlier error occurred. -/
def closeStep (acc : Option Err × List Nat) : Option Stmt → Option Err × List Nat
  | none => acc
  | some st => (orFirst acc.1 st.closeErr, acc.2 ++ [st.id])

/-- The `Close` method (store.go lines 70-86), instrumented: the first
component is the returned error, the second records the ids of the handles
actually closed, in iteration order. -/
def Store.closeTrace (s : Store) : Option Err × List Nat :=
  s.stmtList.foldl closeStep (none, [])

/-- The error returned by `Close` (store.go line 85). -/
def Store.close (s : Store) : Option Err :=
  (s.closeTrace).1

/-- The statement-preparation part of `New` (store.go lines 33-65): prepare
the six statements in order; on the first failure, call `Close` on the
partially filled store, discard its error, and return the preparation
error.  Result: the (possibly partial) store, the ids of the handles closed
by the teardown call, and the returned error. -/
def prepareStmts (db : DB) : Store × List Nat × Option Err :=
  match db.prepGet with
  | .error e =>
    let s : Store := {}
    (s, (s.closeTrace).2, some e)
  | .ok g =>
  match db.prepGetAll with
  | .error e =>
    let s : Store := { getStmt := some g }
    (s, (s.closeTrace).2, some e)
  | .ok ga =>
  match db.prepAdd with
  | .error e =>
    let s : Store := { getStmt := some g, getAllStmt := some ga }
    (s, (s.closeTrace).2, some e)
  | .ok a =>
  match db.prepSet with
  | .error e =>
    let s : Store := { getStmt := some g, getAllStmt := some ga, addStmt := some a }
    (s, (s.closeTrace).2, some e)
  | .ok se =>
  match db.prepUpdate with
  | .error e =>
    let s : Store := { getStmt := some g, getAllStmt := some ga, addStmt := some a,
                       setStmt := some se }
    (s, (s.closeTrace).2, some e)
  | .ok u =>
  match db.prepDelete with
  | .error e =>
    let s : Store := { getStmt := some g, getAllStmt := some ga, addStmt := some a,
                       setStmt := some se, updateStmt := some u }
    (s, (s.closeTrace).2, some e)
  | .ok d =>
    ({ getStmt := some g, getAllStmt := some ga, addStmt := some a,
       setStmt := some se, updateStmt := some u, deleteStmt := some d }, [], none)

/-- The constructor `New` (store.go lines 28-66): execute the
create-if-not-exists statement, then prepare the six statements. -/
def New (db : DB) : Store × List Nat × Option Err :=
  match db.execErr with
  | some e => ({}, [], some e)
  | none => prepareStmts db

/-- The six prepare outcomes of a database handle, in the order `New`
requests them. -/
def DB.prepList (db : DB) : List (Except Err Stmt) :=
  [db.prepGet, db.prepGetAll, db.prepAdd, db.prepSet, db.prepUpdate, db.prepDelete]

/-- The handles delivered by the successful prepare steps before the first
failing one. -/
def okBefore : List (Except Err Stmt) → List Stmt
  | .ok st :: rest => st :: okBefore rest
  | _ => []

/-- The error of the first failing prepare step, if any. -/
def firstPrepErr : List (Except Err Stmt) → Option Err
  | [] => none
  | .ok _ :: rest => firstPrepErr rest
  | .error e :: _ => some e

/-- The first `some` among a list of optional errors. -/
def firstSome : List (Option Err) → Option Err
  | [] => none
  | none :: rest => firstSome rest
  | some e :: _ => some e

/-- Stored values: the serialized byte strings the store passes through. -/
abbrev Bytes := String

/-- The postgres table: rows of text primary key and jsonb value bytes. -/
abbrev Table := List (String × Bytes)

/-- The value of the row with key `k`, if one exists (first match). -/
def lookupRow (t : Table) (k : String) : Option Bytes :=
  match t with
  | [] => none
  | (k1, v1) :: rest => if k1 = k then some v1 else lookupRow rest k

/-- Outcome of `QueryRowContext(ctx, k).Scan(&b)` against the select-by-key
statement: a scanned row, `sql.ErrNoRows`, or any other query failure. -/
inductive RowResult where
  | row (b : Bytes)
  | noRows
  | failure (e : Err)
deriving DecidableEq, Repr

/-- The select-by-key statement executed on a healthy table: returns the
matching row or reports that no row matched. -/
def selectByKey (t : Table) (k : String) : RowResult :=
  match lookupRow t k with
  | some b => .row b
  | none => .noRows

/-- The body of `Get` after the row query (store.go lines 93-99), for any
row-query outcome.  `um` is the caller-supplied `UnmarshalJSON`: it takes
the scanned bytes and the current state of the decode target and returns
the new target state and an optional error.  Result: found flag, error,
and final state of the decode target. -/
def GetScan {α : Type} (r : RowResult) (um : Bytes → α → α × Option Err) (v : α) :
    Bool × Option Err × α :=
  match r with
  | .failure e => (false, some e, v)
  | .noRows => (false, none, v)
  | .row b =>
    let p := um b v
    (true, p.2, p.1)

/-- The `Get` method (store.go lines 91-100) run against a healthy table. -/
def Get {α : Type} (t : Table) (k : String) (um : Bytes → α → α × Option Err) (v : α) :
    Bool × Option Err × α :=
  GetScan (selectByKey t k) um v

/-- World state threaded through the mutating operations: the table plus a
log naming every SQL statement executed so far, so that the absence of
database activity is observable. -/
structure World where
  table : Table
  log : List String
deriving DecidableEq, Repr

/-- The insert statement (`INSERT INTO ... VALUES ($1, $2)`): fails with a
primary-key constraint violation if the key is present, otherwise appends
the row. -/
def insertRow (t : Table) (k : String) (b : Bytes) : Except Err Table :=
  if (lookupRow t k).isSome then .error .uniqueViolation else .ok (t ++ [(k, b)])

/-- The upsert statement (`INSERT ... ON CONFLICT (k) DO UPDATE SET v=$2`):
overwrites the value if the key is present, otherwise appends the row. -/
def upsertRow (t : Table) (k : String) (b : Bytes) : Table :=
  if (lookupRow t k).isSome then
    t.map (fun r => if r.1 = k then (k, b) else r)
  else t ++ [(k, b)]

/-- The update statement (`UPDATE ... SET v=$2 WHERE k=$1`): rewrites every
matching row and reports the number of rows affected.  An update against a
missing key is not a SQL error: it simply affects zero rows. -/
def updateRow (t : Table) (k : String) (b : Bytes) : Table × Nat :=
  (t.map (fun r => if r.1 = k then (k, b) else r),
   (t.filter (fun r => r.1 == k)).length)

/-- The delete statement (`DELETE FROM ... WHERE k=$1`): removes every
matching row and reports the number of rows affected. -/
def deleteRow (t : Table) (k : String) : Table × Nat :=
  (t.filter (fun r => r.1 != k), (t.filter (fun r => r.1 == k)).length)

/-- Hex digit character for a nibble, lowercase as in google/uuid. -/
def hexDigit (n : Nat) : Char :=
  if n < 10 then Char.ofNat (48 + n) else Char.ofNat (87 + n)

/-- Two hex characters encoding one byte. -/
def byteHexChars (b : Nat) : List Char :=
  [hexDigit (b % 256 / 16), hexDigit (b % 16)]

/-- Hex encoding of a byte sequence. -/
def bytesHex (bs : List Nat) : List Char :=
  bs.foldr (fun b acc => byteHexChars b ++ acc) []

/-- The character sequence of `uuid.String()`: the 16 random bytes of a
UUIDv4 rendered as hex in groups of 4, 2, 2, 2 and 6 bytes separated by
hyphens. -/
def uuidChars (bs : List Nat) : List Char :=
  bytesHex (bs.take 4) ++
    ('-' :: bytesHex ((bs.drop 4).take 2)) ++
    ('-' :: bytesHex ((bs.drop 6).take 2)) ++
    ('-' :: bytesHex ((bs.drop 8).take 2)) ++
    ('-' :: bytesHex ((bs.drop 10).take 6))

/-- `uuid.New().String()` applied to the 16 freshly drawn random bytes. -/
def uuidString (bs : List Nat) : String :=
  String.mk (uuidChars bs)

/-- The `Add` method (store.go lines 125-135).  `mv` is the outcome of the
caller-supplied `MarshalJSON`; `uuidBytes` are the 16 random bytes drawn by
`uuid.New()`.  Returns the generated key, the error, and the new world. -/
def Add (w : World) (mv : Except Err Bytes) (uuidBytes : List Nat) :
    (String × Option Err) × World :=
  match mv with
  | .error e => (("", some e), w)
  | .ok b =>
    let k := uuidString uuidBytes
    match insertRow w.table k b with
    | .error e => ((k, some e), { table := w.table, log := w.log ++ ["insert"] })
    | .ok t2 => ((k, none), { table := t2, log := w.log ++ ["insert"] })

/-- The `Set` method (store.go lines 137-145). -/
def Set (w : World) (k : String) (mv : Except Err Bytes) : Option Err × World :=
  match mv with
  | .error e => (some e, w)
  | .ok b => (none, { table := upsertRow w.table k b, log := w.log ++ ["upsert"] })

/-- The `Update` method (store.go lines 149-170): encode, execute the
update statement, then inspect the affected-row count and return the
distinguished `store.ErrNoRows` when it is zero. -/
def Update (w : World) (k : String) (mv : Except Err Bytes) : Option Err × World :=
  match mv with
  | .error e => (some e, w)
  | .ok b =>
    let p := updateRow w.table k b
    let w2 : World := { table := p.1, log := w.log ++ ["update"] }
    if p.2 < 1 then (some .storeErrNoRows, w2) else (none, w2)

/-- The `Delete` method (store.go lines 172-188): execute the delete
statement, then inspect the affected-row count and return the
distinguished `store.ErrNoRows` when it is zero. -/
def Delete (w : World) (k : String) : Option Err × World :=
  let p := deleteRow w.table k
  let w2 : World := { table := p.1, log := w.log ++ ["delete"] }
  if p.2 < 1 then (some .storeErrNoRows, w2) else (none, w2)

/-- The `GetAll` method (store.go lines 104-121).  `rows` is the sequence
of per-row scan outcomes of the select-all query, `terr` the terminal value
of `rows.Err()`.  Each loop iteration scans a row (a scan failure aborts at
once), then calls the collection factory `c.New()` - which appends a fresh
decode target `t0` to the collection - and unmarshals into it; a decode
failure aborts after that append.  Result: the returned error and the
final collection. -/
def GetAll {α : Type} (um : Bytes → α → α × Option Err) (t0 : α) (c : List α) :
    List (Except Err Bytes) → Option Err → Option Err × List α
  | [], terr => (terr, c)
  | .error e :: _, _ => (some e, c)
  | .ok b :: rest, terr =>
    let p := um b t0
    match p.2 with
    | some e => (some e, c ++ [p.1])
    | none => GetAll um t0 (c ++ [p.1]) rest terr

/-- The final state of a decode target after one row of a select-all
result, starting from the fresh target `t0`. -/
def decodeInto {α : Type} (um : Bytes → α → α × Option Err) (t0 : α) :
    Except Err Bytes → α
  | .ok b => (um b t0).1
  | .error _ => t0

/-- Modelled from the spec: the observable outcome of one `Keys(ctx)` call.
The implementation of `Keys` is not under src/ (the spec documents it in
section 4.3); its producer/consumer behaviour is modelled by the full
contents pushed to each stream, whether a background worker was spawned,
and whether each stream was closed. -/
structure KeysOutcome where
  keys : List String
  errs : List Err
  workerSpawned : Bool
  keysClosed : Bool
  errsClosed : Bool
deriving DecidableEq, Repr

/-- Modelled from the spec: the background worker of `Keys`.  For each row
it decodes the key and pushes it to the key stream; on a per-row scan
failure it pushes the error to the error stream and continues with the
subsequent rows. -/
def keysWorker : List (Except Err String) → List String × List Err
  | [] => ([], [])
  | .ok k :: rest =>
    let p := keysWorker rest
    (k :: p.1, p.2)
  | .error e :: rest =>
    let p := keysWorker rest
    (p.1, e :: p.2)

/-- Modelled from the spec: `Keys(ctx)` (spec section 4.3), whose code is
not under src/.  The argument is the outcome of issuing the underlying
query: either an immediate failure, or the per-row scan outcomes together
with the terminal `rows.Err()` value and the cursor-release error.  On
immediate query failure exactly one error is emitted and both streams are
closed with no worker spawned; otherwise a single worker pushes each
decoded key, pushes per-row scan errors without aborting, then pushes the
terminal error and cursor-release error if non-nil, and both streams are
closed. -/
def Keys (q : Except Err (List (Except Err String) × Option Err × Option Err)) :
    KeysOutcome :=
  match q with
  | .error e =>
    { keys := [], errs := [e], workerSpawned := false,
      keysClosed := true, errsClosed := true }
  | .ok (rows, rerr, cerr) =>
    let p := keysWorker rows
    { keys := p.1, errs := p.2 ++ rerr.toList ++ cerr.toList,
      workerSpawned := true, keysClosed := true, errsClosed := true }

/-- The key pushed for each successfully scanned row. -/
def okKeys : List (Except Err String) → List String :=
  List.filterMap fun r =>
    match r with
    | .ok k => some k
    | .error _ => none

/-- The error pushed for each row whose scan failed. -/
def scanErrs : List (Except Err String) → List Err :=
  List.filterMap fun r =>
    match r with
    | .ok _ => none
    | .error e => some e

/-- The single option declared in the repository, `WithCreateTable`
(option.go): an option is a function run by the constructor against the
database handle and table name. -/
inductive StoreOption where
  | withCreateTable
deriving DecidableEq, Repr

/-- Modelled from the spec: the constructor variant taking options (spec
section 4.1), whose body is not under src/ (only its tests and the
`WithCreateTable` declaration are).  Running the options in order: each
`WithCreateTable` executes the idempotent create-if-not-exists statement;
a failing option aborts.  Returns the log of table-creation statements
executed and the first error. -/
def runOptions (db : DB) : List StoreOption → List String × Option Err
  | [] => ([], none)
  | .withCreateTable :: rest =>
    match db.execErr with
    | some e => (["createTable"], some e)
    | none =>
      let p := runOptions db rest
      ("createTable" :: p.1, p.2)

/-- Modelled from the spec: `New(db, tablename, options...)` of the options
variant - run the supplied options (executing the table-creation statement
once per `WithCreateTable` option), then prepare the six statements.
Second component: the log of table-creation statements executed. -/
def NewWith (db : DB) (opts : List StoreOption) :
    (Store × List Nat × Option Err) × List String :=
  let r := runOptions db opts
  match r.2 with
  | some e => (({}, [], some e), r.1)
  | none => (prepareStmts db, r.1)

/-- A concrete database handle used to witness the construction-failure
policy: the first prepare step delivers handle 1 and the second fails. -/
def dbW : DB :=
  { execErr := none, prepGet := .ok ⟨1, none⟩, prepGetAll := .error (.driver 7),
    prepAdd := .ok ⟨3, none⟩, prepSet := .ok ⟨4, none⟩,
    prepUpdate := .ok ⟨5, none⟩, prepDelete := .ok ⟨6, none⟩ }

/-! Helper lemmas about the teardown loop. -/

@[simp]
theorem orFirst_none_left (o : Option Err) : orFirst none o = o := rfl

@[simp]
theorem orFirst_some_left (e : Err) (o : Option Err) : orFirst (some e) o = some e := rfl

@[simp]
theorem orFirst_none_right (o : Option Err) : orFirst o none = o := by
  cases o <;> rfl

theorem orFirst_assoc (a b c : Option Err) :
    orFirst (orFirst a b) c = orFirst a (orFirst b c) := by
  cases a <;> rfl

theorem firstSome_cons (x : Option Err) (r : List (Option Err)) :
    firstSome (x :: r) = orFirst x (firstSome r) := by
  cases x <;> rfl

/-- Specification of the teardown loop on any handle list: it closes
exactly the non-nil handles in order and keeps the first close error. -/
theorem foldl_closeStep (l : List (Option Stmt)) (acc : Option Err × List Nat) :
    l.foldl closeStep acc =
      (orFirst acc.1 (firstSome ((l.filterMap id).map Stmt.closeErr)),
       acc.2 ++ (l.filterMap id).map Stmt.id) := by
  induction l generalizing acc with
  | nil => simp [firstSome]
  | cons hd tl ih =>
    cases hd with
    | none => simpa [closeStep] using ih acc
    | some st =>
      rw [List.foldl_cons, ih]
      simp [closeStep, orFirst_assoc, firstSome_cons]

/-! Helper lemmas about the table and the row statements. -/

theorem lookupRow_append_self (t : Table) (k : String) (b : Bytes)
    (h : lookupRow t k = none) : lookupRow (t ++ [(k, b)]) k = some b := by
  induction t with
  | nil => simp [lookupRow]
  | cons r rest ih =>
    by_cases hk : r.1 = k
    · simp [lookupRow, hk] at h
    · simp only [lookupRow, hk, if_neg] at h ⊢
      exact ih h

theorem filter_eq_nil_of_lookupRow_none (t : Table) (k : String)
    (h : lookupRow t k = none) : t.filter (fun r => r.1 == k) = [] := by
  induction t with
  | nil => rfl
  | cons r rest ih =>
    by_cases hk : r.1 = k
    · simp [lookupRow, hk] at h
    · simp only [lookupRow, hk, if_neg] at h
      have hb : (r.1 == k) = false := by simp [hk]
      simpa [List.filter_cons, hb] using ih h

theorem length_filter_pos_of_lookupRow_some (t : Table) (k : String) (b : Bytes)
    (h : lookupRow t k = some b) : 0 < (t.filter (fun r => r.1 == k)).length := by
  induction t with
  | nil => simp [lookupRow] at h
  | cons r rest ih =>
    by_cases hk : r.1 = k
    · have hb : (r.1 == k) = true := by simp [hk]
      simp [List.filter_cons, hb]
    · simp only [lookupRow, hk, if_neg] at h
      have hb : (r.1 == k) = false := by simp [hk]
      simpa [List.filter_cons, hb] using ih h

/-! Helper lemmas about the streaming enumeration worker. -/

theorem keysWorker_eq (rows : List (Except Err String)) :
    keysWorker rows = (okKeys rows, scanErrs rows) := by
  induction rows with
  | nil => rfl
  | cons r rest ih =>
    cases r <;> simp [keysWorker, okKeys, scanErrs, ih]

/-! Helper lemmas about GetAll. -/

/-- Running GetAll over rows that all scan and decode cleanly appends their
decoded values to the collection and continues with the remaining rows. -/
theorem GetAll_clean_run {α : Type} (um : Bytes → α → α × Option Err) (t0 : α)
    (pre : List (Except Err Bytes))
    (hpre : ∀ r ∈ pre, ∃ b, r = Except.ok b ∧ (um b t0).2 = none) :
    ∀ (c : List α) (rest : List (Except Err Bytes)) (terr : Option Err),
      GetAll um t0 c (pre ++ rest) terr =
        GetAll um t0 (c ++ pre.map (decodeInto um t0)) rest terr := by
  induction pre with
  | nil => intro c rest terr; simp
  | cons r pre ih =>
    intro c rest terr
    obtain ⟨b, rfl, hb⟩ := hpre r (List.mem_cons_self r pre)
    have ih2 := ih (fun r hr => hpre r (List.mem_cons_of_mem _ hr))
    calc GetAll um t0 c ((Except.ok b :: pre) ++ rest) terr
        = GetAll um t0 (c ++ [(um b t0).1]) (pre ++ rest) terr := by
          simp [GetAll, hb]
      _ = GetAll um t0 ((c ++ [(um b t0).1]) ++ pre.map (decodeInto um t0)) rest terr :=
          ih2 _ _ _
      _ = GetAll um t0 (c ++ (Except.ok b :: pre).map (decodeInto um t0)) rest terr := by
          simp [decodeInto, List.append_assoc]

/-! Helper lemmas about the UUID rendering. -/

theorem bytesHex_length (bs : List Nat) : (bytesHex bs).length = 2 * bs.length := by
  induction bs with
  | nil => rfl
  | cons b rest ih =>
    simp [bytesHex, byteHexChars] at ih ⊢
    omega

theorem uuidString_length (bs : List Nat) (h : bs.length = 16) :
    (uuidString bs).length = 36 := by
  have hm : (uuidString bs).length = (uuidChars bs).length := rfl
  rw [hm]
  simp [uuidChars, bytesHex_length, h]

/-! Helper lemmas about the options variant of the constructor. -/

theorem NewWith_log (db : DB) (opts : List StoreOption) :
    (NewWith db opts).2 = (runOptions db opts).1 := by
  unfold NewWith
  cases h : (runOptions db opts).2 <;> simp [h]

theorem runOptions_mem_createTable (db : DB) (opts : List StoreOption) :
    "createTable" ∈ (runOptions db opts).1 ↔ StoreOption.withCreateTable ∈ opts := by
  induction opts with
  | nil => simp [runOptions]
  | cons o rest ih =>
    cases o
    cases h : db.execErr <;> simp [runOptions, h, ih]

end Postgres

/-- C3: for every Store (including one whose statement handles are
partially or all nil), Close iterates the fixed ordered list of the six
statement handles, skips the nil ones, closes every non-nil handle even
after one close fails (the trace lists them all, in order), and returns
the first close error encountered (nil if none fail). -/
theorem Postgres.Close_closes_all_returns_first_error (s : Postgres.Store) :
    (s.closeTrace).2 = (s.stmtList.filterMap id).map Postgres.Stmt.id ∧
    s.close = Postgres.firstSome
      ((s.stmtList.filterMap id).map Postgres.Stmt.closeErr) := by
  constructor
  · simp [Postgres.Store.closeTrace, Postgres.foldl_closeStep]
  · simp [Postgres.Store.close, Postgres.Store.closeTrace, Postgres.foldl_closeStep]

/-- C1: when the table-creation step succeeds, if any of the six prepare
steps of New fails then New returns the error of the first failing prepare
step (teardown errors are discarded: the result does not depend on any
close error), the teardown call closes exactly the handles prepared before
that step, and on success no handle is closed and all six handles of the
returned Store are valid. -/
theorem Postgres.New_prepare_failure_teardown (db : Postgres.DB)
    (h : db.execErr = none) :
    (Postgres.New db).2.2 = Postgres.firstPrepErr db.prepList ∧
    (Postgres.firstPrepErr db.prepList ≠ none →
      (Postgres.New db).2.1 = (Postgres.okBefore db.prepList).map Postgres.Stmt.id) ∧
    (Postgres.firstPrepErr db.prepList = none →
      (Postgres.New db).2.1 = [] ∧
      (Postgres.New db).1.getStmt.isSome ∧ (Postgres.New db).1.getAllStmt.isSome ∧
      (Postgres.New db).1.addStmt.isSome ∧ (Postgres.New db).1.setStmt.isSome ∧
      (Postgres.New db).1.updateStmt.isSome ∧ (Postgres.New db).1.deleteStmt.isSome) := by
  have hnew : Postgres.New db = Postgres.prepareStmts db := by
    simp [Postgres.New, h]
  rw [hnew]
  cases hg : db.prepGet <;> cases hga : db.prepGetAll <;> cases ha : db.prepAdd <;>
    cases hs : db.prepSet <;> cases hu : db.prepUpdate <;> cases hd : db.prepDelete <;>
    simp [Postgres.prepareStmts, Postgres.DB.prepList, hg, hga, ha, hs, hu, hd,
      Postgres.okBefore, Postgres.firstPrepErr, Postgres.Store.closeTrace,
      Postgres.Store.stmtList, Postgres.closeStep, Postgres.orFirst]

/-- Witness for C1: a database handle whose second prepare step fails with
driver error 7 after the first step delivered handle 1; New tears down
exactly handle 1 and returns driver error 7. -/
theorem Postgres.New_prepare_failure_teardown_witness :
    (Postgres.New Postgres.dbW).2.2 =
      Postgres.firstPrepErr (Postgres.DB.prepList Postgres.dbW) ∧
    (Postgres.New Postgres.dbW).2.1 =
      (Postgres.okBefore (Postgres.DB.prepList Postgres.dbW)).map Postgres.Stmt.id :=
  ⟨(Postgres.New_prepare_failure_teardown Postgres.dbW rfl).1,
   (Postgres.New_prepare_failure_teardown Postgres.dbW rfl).2.1 (by decide)⟩

/-- C2: Keys returns a key stream and an error stream such that on
immediate query failure exactly one error is emitted, both streams are
closed and no concurrent producer is spawned; on successful query start a
single background worker pushes the key of every successfully scanned row
(in order), and a per-row scan failure pushes its error but the worker
continues with the subsequent rows - the keys of all later rows are still
emitted, as the filterMap characterisation shows. -/
theorem Postgres.Keys_stream_contract :
    (∀ e : Postgres.Err,
      Postgres.Keys (.error e) =
        { keys := [], errs := [e], workerSpawned := false,
          keysClosed := true, errsClosed := true }) ∧
    (∀ (rows : List (Except Postgres.Err String)) (rerr cerr : Option Postgres.Err),
      Postgres.Keys (.ok (rows, rerr, cerr)) =
        { keys := Postgres.okKeys rows,
          errs := Postgres.scanErrs rows ++ rerr.toList ++ cerr.toList,
          workerSpawned := true, keysClosed := true, errsClosed := true }) ∧
    (∀ (e : Postgres.Err) (rest : List (Except Postgres.Err String)),
      Postgres.okKeys (Except.error e :: rest) = Postgres.okKeys rest ∧
      Postgres.scanErrs (Except.error e :: rest) = e :: Postgres.scanErrs rest) := by
  refine ⟨fun e => rfl, fun rows rerr cerr => ?_, fun e rest => ?_⟩
  · simp [Postgres.Keys, Postgres.keysWorker_eq]
  · constructor <;> simp [Postgres.okKeys, Postgres.scanErrs]

/-- C4: for every value whose encoder succeeds (producing bytes b that the
matching decoder turns back into v), Add returns a 36-character
UUID-formatted key with a nil error, and a subsequent Get of that key on
the resulting table returns found with the decode target equal to v.  The
16 random bytes drawn by the UUID generator are an explicit input, assumed
not to collide with an existing key. -/
theorem Postgres.Add_then_Get_roundtrip {α : Type} (w : Postgres.World) (v t0 : α)
    (b : Postgres.Bytes) (um : Postgres.Bytes → α → α × Option Postgres.Err)
    (bs : List Nat)
    (hlen : bs.length = 16)
    (hfresh : Postgres.lookupRow w.table (Postgres.uuidString bs) = none)
    (hum : um b t0 = (v, none)) :
    (Postgres.Add w (.ok b) bs).1.1.length = 36 ∧
    (Postgres.Add w (.ok b) bs).1.2 = none ∧
    Postgres.Get (Postgres.Add w (.ok b) bs).2.table
      (Postgres.Add w (.ok b) bs).1.1 um t0 = (true, none, v) := by
  have hins : Postgres.insertRow w.table (Postgres.uuidString bs) b =
      .ok (w.table ++ [(Postgres.uuidString bs, b)]) := by
    simp [Postgres.insertRow, hfresh]
  refine ⟨?_, ?_, ?_⟩
  · simp [Postgres.Add, hins, Postgres.uuidString_length bs hlen]
  · simp [Postgres.Add, hins]
  · simp [Postgres.Add, hins, Postgres.Get, Postgres.selectByKey,
      Postgres.lookupRow_append_self w.table _ b hfresh, Postgres.GetScan, hum]

/-- Witness for C4: adding the value 5 (encoded as the byte string "5")
with 16 zero random bytes to the empty table yields the all-zero UUID key
of length 36 and no error, and Get on that key decodes 5 back. -/
theorem Postgres.Add_then_Get_roundtrip_witness :
    (Postgres.Add { table := [], log := [] } (.ok "5") (List.replicate 16 0)).1.1.length = 36 ∧
    (Postgres.Add { table := [], log := [] } (.ok "5") (List.replicate 16 0)).1.2 = none ∧
    Postgres.Get (Postgres.Add { table := [], log := [] } (.ok "5") (List.replicate 16 0)).2.table
      (Postgres.Add { table := [], log := [] } (.ok "5") (List.replicate 16 0)).1.1
      (fun s n => if s = "5" then (5, none) else (n, some (Postgres.Err.driver 0))) 0 =
      (true, none, 5) :=
  Postgres.Add_then_Get_roundtrip { table := [], log := [] } 5 0 "5"
    (fun s n => if s = "5" then (5, none) else (n, some (Postgres.Err.driver 0)))
    (List.replicate 16 0) (by decide) rfl (by decide)

/-- C5: for a key with no matching row, Update (with successfully encoded
value) and Delete both return the same distinguished store.ErrNoRows
value, and the underlying statements affect zero rows without any driver
error; for a key with a matching row, both return nil. -/
theorem Postgres.Update_Delete_notFound (w : Postgres.World) (k1 k2 : String)
    (b b0 : Postgres.Bytes)
    (h1 : Postgres.lookupRow w.table k1 = none)
    (h2 : Postgres.lookupRow w.table k2 = some b0) :
    (Postgres.updateRow w.table k1 b).2 = 0 ∧
    (Postgres.deleteRow w.table k1).2 = 0 ∧
    (Postgres.Update w k1 (.ok b)).1 = some .storeErrNoRows ∧
    (Postgres.Delete w k1).1 = some .storeErrNoRows ∧
    (Postgres.Update w k2 (.ok b)).1 = none ∧
    (Postgres.Delete w k2).1 = none := by
  have e1 : w.table.filter (fun r => r.1 == k1) = [] :=
    Postgres.filter_eq_nil_of_lookupRow_none w.table k1 h1
  have e2 : 0 < (w.table.filter (fun r => r.1 == k2)).length :=
    Postgres.length_filter_pos_of_lookupRow_some w.table k2 b0 h2
  have e2n : ¬ ((w.table.filter (fun r => r.1 == k2)).length < 1) := by omega
  refine ⟨?_, ?_, ?_, ?_, ?_, ?_⟩
  · simp [Postgres.updateRow, e1]
  · simp [Postgres.deleteRow, e1]
  · simp [Postgres.Update, Postgres.updateRow, e1]
  · simp [Postgres.Delete, Postgres.deleteRow, e1]
  · simp [Postgres.Update, Postgres.updateRow, e2n]
  · simp [Postgres.Delete, Postgres.deleteRow, e2n]

/-- Witness for C5: in the table holding only key "a", Update and Delete
of key "b" return store.ErrNoRows with zero rows affected, while Update
and Delete of key "a" return nil. -/
theorem Postgres.Update_Delete_notFound_witness :
    (Postgres.updateRow [("a", "x")] "b" "y").2 = 0 ∧
    (Postgres.deleteRow [("a", "x")] "b").2 = 0 ∧
    (Postgres.Update { table := [("a", "x")], log := [] } "b" (.ok "y")).1 =
      some .storeErrNoRows ∧
    (Postgres.Delete { table := [("a", "x")], log := [] } "b").1 =
      some .storeErrNoRows ∧
    (Postgres.Update { table := [("a", "x")], log := [] } "a" (.ok "y")).1 = none ∧
    (Postgres.Delete { table := [("a", "x")], log := [] } "a").1 = none :=
  Postgres.Update_Delete_notFound { table := [("a", "x")], log := [] } "b" "a"
    "y" "x" (by decide) (by decide)

/-- C6: for a key with no matching row, Get returns found=false with a nil
error (a miss is not an error) and the decode target untouched; for any
row-query failure other than the no-row case, Get returns found=false with
that error and the decode target untouched. -/
theorem Postgres.Get_miss_and_failure {α : Type} (t : Postgres.Table) (k : String)
    (um : Postgres.Bytes → α → α × Option Postgres.Err) (v : α) (e : Postgres.Err)
    (hmiss : Postgres.lookupRow t k = none) :
    Postgres.Get t k um v = (false, none, v) ∧
    Postgres.GetScan (.failure e) um v = (false, some e, v) := by
  constructor
  · simp [Postgres.Get, Postgres.selectByKey, hmiss, Postgres.GetScan]
  · rfl

/-- Witness for C6: Get of key "k" on the empty table misses without an
error and leaves the target 0 unchanged, even under a decoder that would
change it; a driver failure is surfaced with the target unchanged. -/
theorem Postgres.Get_miss_and_failure_witness :
    Postgres.Get [] "k" (fun _ n => (n + 7, some (Postgres.Err.driver 1))) 0 =
      (false, none, 0) ∧
    Postgres.GetScan (.failure (Postgres.Err.driver 2))
      (fun _ n => (n + 7, some (Postgres.Err.driver 1))) 0 =
      (false, some (Postgres.Err.driver 2), 0) :=
  Postgres.Get_miss_and_failure [] "k"
    (fun _ n => (n + 7, some (Postgres.Err.driver 1))) 0 (Postgres.Err.driver 2) rfl

/-- C7: GetAll stops at the first scan or decode error among the rows and
returns it, leaving the collection with exactly the elements appended
before the abort: the decoded values of the earlier rows, plus - in the
decode-failure case - the fresh target appended by the collection factory
for the failing row, in the state the failing decoder left it.  The rows
after the failing one are never processed: the result does not depend on
them. -/
theorem Postgres.GetAll_first_error {α : Type}
    (um : Postgres.Bytes → α → α × Option Postgres.Err) (t0 : α) (c : List α)
    (pre rest : List (Except Postgres.Err Postgres.Bytes)) (terr : Option Postgres.Err)
    (hpre : ∀ r ∈ pre, ∃ b, r = Except.ok b ∧ (um b t0).2 = none) :
    (∀ e, Postgres.GetAll um t0 c (pre ++ Except.error e :: rest) terr =
      (some e, c ++ pre.map (Postgres.decodeInto um t0))) ∧
    (∀ b e, (um b t0).2 = some e →
      Postgres.GetAll um t0 c (pre ++ Except.ok b :: rest) terr =
      (some e, c ++ pre.map (Postgres.decodeInto um t0) ++ [(um b t0).1])) := by
  constructor
  · intro e
    rw [Postgres.GetAll_clean_run um t0 pre hpre]
    simp [Postgres.GetAll]
  · intro b e hb
    rw [Postgres.GetAll_clean_run um t0 pre hpre]
    simp [Postgres.GetAll, hb]

/-- Witness for C7: with a decoder that fails on the bytes "bad", a scan
failure after one clean row aborts keeping the decoded first row, and a
decode failure after one clean row aborts keeping the decoded first row
plus the partially decoded failing element; the trailing row "zzz" is
never processed in either case. -/
theorem Postgres.GetAll_first_error_witness :
    Postgres.GetAll
        (fun s _ => (s.length, if s = "bad" then some (Postgres.Err.driver 3) else none))
        0 [] [Except.ok "aa", Except.error (Postgres.Err.driver 9), Except.ok "zzz"]
        none =
      (some (Postgres.Err.driver 9),
        [] ++ [Except.ok "aa"].map
          (Postgres.decodeInto
            (fun s _ => (s.length, if s = "bad" then some (Postgres.Err.driver 3) else none))
            0)) ∧
    Postgres.GetAll
        (fun s _ => (s.length, if s = "bad" then some (Postgres.Err.driver 3) else none))
        0 [] [Except.ok "aa", Except.ok "bad", Except.ok "zzz"] none =
      (some (Postgres.Err.driver 3),
        [] ++ [Except.ok "aa"].map
          (Postgres.decodeInto
            (fun s _ => (s.length, if s = "bad" then some (Postgres.Err.driver 3) else none))
            0) ++
          [((fun (s : Postgres.Bytes) (_ : Nat) =>
              (s.length, if s = "bad" then some (Postgres.Err.driver 3) else none)) "bad" 0).1]) :=
  ⟨(Postgres.GetAll_first_error _ 0 [] [Except.ok "aa"] [Except.ok "zzz"] none
      (by intro r hr; simp at hr; subst hr; exact ⟨"aa", rfl, by decide⟩)).1
      (Postgres.Err.driver 9),
   (Postgres.GetAll_first_error _ 0 [] [Except.ok "aa"] [Except.ok "zzz"] none
      (by intro r hr; simp at hr; subst hr; exact ⟨"aa", rfl, by decide⟩)).2
      "bad" (Postgres.Err.driver 3) (by decide)⟩

/-- C8: when the encoder fails, Add, Set and Update return the encoding
error unchanged and leave the world - table and statement-execution log -
exactly as it was: no database statement is executed. -/
theorem Postgres.encoding_error_aborts (w : Postgres.World) (k : String)
    (e : Postgres.Err) (bs : List Nat) (mv : Except Postgres.Err Postgres.Bytes)
    (hmv : mv = .error e) :
    Postgres.Add w mv bs = (("", some e), w) ∧
    Postgres.Set w k mv = (some e, w) ∧
    Postgres.Update w k mv = (some e, w) := by
  subst hmv
  exact ⟨rfl, rfl, rfl⟩

/-- Witness for C8: a failing encoder aborts Add, Set and Update on the
empty world, which is returned unchanged together with driver error 4. -/
theorem Postgres.encoding_error_aborts_witness :
    Postgres.Add { table := [], log := [] } (.error (Postgres.Err.driver 4)) [] =
      (("", some (Postgres.Err.driver 4)), { table := [], log := [] }) ∧
    Postgres.Set { table := [], log := [] } "k" (.error (Postgres.Err.driver 4)) =
      (some (Postgres.Err.driver 4), { table := [], log := [] }) ∧
    Postgres.Update { table := [], log := [] } "k" (.error (Postgres.Err.driver 4)) =
      (some (Postgres.Err.driver 4), { table := [], log := [] }) :=
  Postgres.encoding_error_aborts { table := [], log := [] } "k"
    (Postgres.Err.driver 4) [] (.error (Postgres.Err.driver 4)) rfl

/-- C9: the options-variant constructor executes the create-if-not-exists
table-creation statement exactly when a WithCreateTable option is supplied
among its options; with no options it executes no table-creation statement
and only runs the six-statement preparation. -/
theorem Postgres.NewWith_creates_table_iff (db : Postgres.DB)
    (opts : List Postgres.StoreOption) :
    ("createTable" ∈ (Postgres.NewWith db opts).2 ↔
      Postgres.StoreOption.withCreateTable ∈ opts) ∧
    (opts = [] →
      (Postgres.NewWith db opts).2 = [] ∧
      (Postgres.NewWith db opts).1 = Postgres.prepareStmts db) := by
  constructor
  · rw [Postgres.NewWith_log]
    exact Postgres.runOptions_mem_createTable db opts
  · rintro rfl
    exact ⟨rfl, rfl⟩

/-- Witness for C9: with no options supplied, the constructor executes no
table-creation statement and its result is exactly the six-statement
preparation. -/
theorem Postgres.NewWith_creates_table_iff_witness :
    (Postgres.NewWith Postgres.dbW []).2 = [] ∧
    (Postgres.NewWith Postgres.dbW []).1 = Postgres.prepareStmts Postgres.dbW :=
  (Postgres.NewWith_creates_table_iff Postgres.dbW []).2 rfl

/-- C10: for a key whose row exists but whose stored bytes make the
caller-supplied decoder fail, Get returns found=true together with the
non-nil decode error, and the decode target ends in whatever state the
failing decoder left it - so found=true does not imply a nil error. -/
theorem Postgres.Get_found_decode_error {α : Type} (t : Postgres.Table) (k : String)
    (b : Postgres.Bytes) (um : Postgres.Bytes → α → α × Option Postgres.Err)
    (v v2 : α) (e : Postgres.Err)
    (hrow : Postgres.lookupRow t k = some b)
    (hum : um b v = (v2, some e)) :
    Postgres.Get t k um v = (true, some e, v2) := by
  simp [Postgres.Get, Postgres.selectByKey, hrow, Postgres.GetScan, hum]

/-- Witness for C10: on a table holding key "k", a decoder that mutates
the target from 0 to 7 and fails makes Get return found=true, the driver
error, and the mutated target 7. -/
theorem Postgres.Get_found_decode_error_witness :
    Postgres.Get [("k", "x")] "k"
      (fun _ n => (n + 7, some (Postgres.Err.driver 1))) 0 =
      (true, some (Postgres.Err.driver 1), 7) :=
  Postgres.Get_found_decode_error [("k", "x")] "k" "x"
    (fun _ n => (n + 7, some (Postgres.Err.driver 1))) 0 7
    (Postgres.Err.driver 1) (by decide) rfl
